import Mathlib

/-!
Verification of the Care Guides Proxy core (request authentication,
canonicalization, trust policy, URL normalization).

Shallow embedding of the JavaScript sources:
  * `src/index.js` (v2.2.1 revision): `hasProxySignature`,
    `verifyShopifyProxySignature`, `parseGuides`, `wantsJson`,
    `handleCareGuides`.
  * `src/unnamed/part_000`: `looksLikeShopifyProxy`, `verifyAppProxy`,
    `requireShopifySignature` (the `ALLOW_DIRECT` dual-mode middleware).
  * `src/unnamed/part_001` (last revision in the file): the
    `verifyShopifyAppProxySignature` canonicalization (no-separator join,
    strips `hmac` as well).
  * `src/unnamed/part_003`: `verifyShopifyProxy` (hmac-parameter verifier
    with an unguarded `crypto.timingSafeEqual`).

Modelling conventions:
  * Express query objects are modelled as association lists
    `List (String × QueryValue)`; repeated query keys arrive as arrays, so a
    value is either one string or a list of strings.  Express guarantees the
    keys of the parsed object are distinct; theorems that need it take a
    `NodupKeys` hypothesis.
  * JavaScript string truthiness: `""` is falsy, every other string truthy,
    arrays always truthy.
  * `crypto.createHmac("sha256", secret).update(m).digest("hex")` is an
    external Node library call; it is modelled as an abstract parameter
    `hmac : String → String → String` (secret → message → hex digest).  The
    only property of it any claim uses is that it is a function.
  * `crypto.timingSafeEqual(Buffer.from(a), Buffer.from(b))` compares the
    UTF-8 bytes of `a` and `b`; UTF-8 encoding is injective, so the
    comparison is modelled as string equality.  (Node throws when the byte
    lengths differ; the guarded call sites never reach that case for
    length-equal ASCII digests.)
  * JavaScript `.length` counts UTF-16 code units; modelled by
    `utf16Length`.
  * JavaScript's default `Array.prototype.sort` orders strings by their
    UTF-16 code-unit sequence; modelled by the lexicographic order on the
    character list (`keyOrder`), which agrees on all BMP text.
-/

/-! ### JavaScript string primitives (character-list based, kernel-reducible) -/

/-- Lexicographic comparison of character lists, mirroring the ordering that
JavaScript's default string comparison (`Array.prototype.sort`) uses. -/
def charListLe : List Char → List Char → Bool
  | [], _ => true
  | _ :: _, [] => false
  | a :: as, b :: bs =>
    if a < b then true
    else if b < a then false
    else charListLe as bs

/-- String comparison used by `Object.keys(rest).sort()`. -/
def keyLe (a b : String) : Bool := charListLe a.data b.data

/-- `keyLe` as a relation, for use with `List.insertionSort`. -/
def keyOrder (a b : String) : Prop := keyLe a b = true

instance : DecidableRel keyOrder := fun a b => inferInstanceAs (Decidable (keyLe a b = true))

/-- Number of UTF-16 code units of a string: JavaScript's `.length`. -/
def utf16Length (s : String) : Nat :=
  (s.data.map fun c => if c.toNat < 65536 then 1 else 2).sum

/-- `Array.prototype.join(sep)` / `String.prototype` concatenation with a
separator, as used for `"&"`, `"\x22"`-free joins in the verifiers. -/
def joinSep (sep : String) : List String → String
  | [] => ""
  | x :: xs => xs.foldl (fun acc y => acc ++ sep ++ y) x

/-- `String.prototype.split(",")`: splits at every comma, keeping empty
segments (`"".split(",") == [""]`). -/
def splitCommaAux : List Char → List Char → List String
  | [], acc => [⟨acc.reverse⟩]
  | c :: rest, acc =>
    if c = ',' then ⟨acc.reverse⟩ :: splitCommaAux rest []
    else splitCommaAux rest (c :: acc)

/-- `String(s).split(",")`. -/
def jsSplitComma (s : String) : List String := splitCommaAux s.data []

/-- `String.prototype.trim()`: strip leading and trailing whitespace. -/
def jsTrim (s : String) : String :=
  ⟨((s.data.dropWhile Char.isWhitespace).reverse.dropWhile Char.isWhitespace).reverse⟩

/-- `String.prototype.toLowerCase()` restricted to the ASCII range, matching
the `/i` flag of the regex `/^https?:\x2f\x2f/i` on its ASCII pattern. -/
def jsToLower (s : String) : String := ⟨s.data.map Char.toLower⟩

/-- Does `pre` occur at the start of `l`? -/
def startsWithSeq : List Char → List Char → Bool
  | [], _ => true
  | _ :: _, [] => false
  | a :: pre, b :: l => a == b && startsWithSeq pre l

/-- `String.prototype.startsWith`. -/
def strStartsWith (s pre : String) : Bool := startsWithSeq pre.data s.data

/-- Does `needle` occur anywhere in `hay`? (JavaScript `String.prototype.includes`.) -/
def containsSeq (needle : List Char) : List Char → Bool
  | [] => needle.isEmpty
  | c :: t => startsWithSeq needle (c :: t) || containsSeq needle t

/-- `hay.includes(needle)`. -/
def jsIncludes (hay needle : String) : Bool := containsSeq needle.data hay.data

/-! ### Query model -/

/-- A value of one query parameter: Express produces a string for a single
occurrence and an array of strings for a repeated key. -/
inductive QueryValue where
  | str (s : String)
  | arr (l : List String)
deriving DecidableEq, Repr

/-- JavaScript truthiness of a query value: `""` is falsy, all other strings
truthy, arrays (even empty ones) truthy. -/
def QueryValue.truthy : QueryValue → Bool
  | .str s => !(s == "")
  | .arr _ => true

/-- `String(v)`: an array stringifies as its elements joined with commas. -/
def QueryValue.jsToString : QueryValue → String
  | .str s => s
  | .arr l => joinSep "," l

/-- A parsed query object: association list of parameter name to value. -/
abbrev Query := List (String × QueryValue)

/-- Property access `query[k]` on the parsed query object. -/
def lookupJs (q : Query) (k : String) : Option QueryValue :=
  (q.find? fun p => p.fst == k).map Prod.snd

/-- Truthiness of `query[k]` (`undefined` is falsy). -/
def truthyAt (q : Query) (k : String) : Bool :=
  match lookupJs q k with
  | some v => v.truthy
  | none => false

/-- The keys of a query object are distinct (Express guarantees this for
`req.query`). -/
def NodupKeys (q : Query) : Prop := (q.map Prod.fst).Nodup

instance (q : Query) : Decidable (NodupKeys q) :=
  inferInstanceAs (Decidable (q.map Prod.fst).Nodup)

/-! ### Canonicalizer (src/index.js v2.2.1 lines 38–44; identical in
src/unnamed/part_000 lines 72–81) -/

/-- `const \x7b signature, ...rest \x7d = query`: every parameter except
`signature`. -/
def restOf (q : Query) : Query := q.filter fun p => !(p.fst == "signature")

/-- `Object.keys(rest).sort()`. -/
def sortedRestKeys (q : Query) : List String :=
  List.insertionSort keyOrder ((restOf q).map Prod.fst)

/-- The `key=value` pair for one key of `rest`:
`` `${key}=${Array.isArray(rest[key]) ? rest[key].join(",") : rest[key]}` ``. -/
def pairFor (q : Query) (k : String) : String :=
  k ++ "=" ++ (((lookupJs q k).getD (.str "")).jsToString)

/-- The canonical message of `verifyShopifyProxySignature` (src/index.js
v2.2.1 lines 41–44): sorted `key=value` pairs joined with `"&"`. -/
def canonicalMessage (q : Query) : String :=
  joinSep "&" ((sortedRestKeys q).map (pairFor (restOf q)))

/-! ### Signer/Verifier (src/index.js v2.2.1 lines 33–54) -/

/-- `hasProxySignature(query)`: `Boolean(query && query.signature)`
(src/index.js lines 33–35). -/
def hasProxySignature (q : Query) : Bool := truthyAt q "signature"

/-- Result of a verifier, instrumented with whether the constant-time
byte-wise comparator (`crypto.timingSafeEqual`) was invoked. -/
structure VerifyTrace where
  ok : Bool
  reason : Option String
  comparatorInvoked : Bool
deriving DecidableEq, Repr

/-- `crypto.timingSafeEqual(Buffer.from(a), Buffer.from(b))` modelled as
string equality (UTF-8 encoding is injective). -/
def timingSafeEqualModel (a b : String) : Bool := a == b

/-- `verifyShopifyProxySignature(query, secret)` (src/index.js v2.2.1
lines 37–54), instrumented: `safeEqual` is
`digest.length === sig.length && crypto.timingSafeEqual(...)`, so the
comparator runs exactly when the length check passes. -/
def verifyShopifyProxySignatureT (hmac : String → String → String)
    (q : Query) (secret : String) : VerifyTrace :=
  match lookupJs q "signature" with
  | none => ⟨false, some "Missing signature", false⟩
  | some v =>
    if !v.truthy then ⟨false, some "Missing signature", false⟩
    else
      let message := canonicalMessage q
      let digest := hmac secret message
      let sig := v.jsToString
      if utf16Length digest == utf16Length sig then
        if timingSafeEqualModel digest sig then ⟨true, none, true⟩
        else ⟨false, some "Invalid signature", true⟩
      else ⟨false, some "Invalid signature", false⟩

/-- The observable result of `verifyShopifyProxySignature` (ok / reason). -/
def verifyShopifyProxySignature (hmac : String → String → String)
    (q : Query) (secret : String) : Bool :=
  (verifyShopifyProxySignatureT hmac q secret).ok

/-! ### URL normalizer (src/index.js v2.2.1 lines 56–86, `parseGuides`) -/

/-- The regex test `/^https?:\x2f\x2f/i.test(url)`. -/
def startsHttp (s : String) : Bool :=
  strStartsWith (jsToLower s) "http://" || strStartsWith (jsToLower s) "https://"

/-- The dedup-and-filter loop of `parseGuides` (lines 73–83): trim, drop
empties, drop candidates failing the regex, drop already-seen URLs. -/
def dedupeFilter : List String → List String → List String
  | [], _ => []
  | u :: rest, seen =>
    if jsTrim u == "" then dedupeFilter rest seen
    else if !startsHttp (jsTrim u) then dedupeFilter rest seen
    else if jsTrim u ∈ seen then dedupeFilter rest seen
    else jsTrim u :: dedupeFilter rest (jsTrim u :: seen)

/-- The list→list normalization core of `parseGuides`: the loop of
lines 73–83 followed by `out.slice(0, 50)` (line 85). -/
def normalizeGuides (l : List String) : List String :=
  (dedupeFilter l []).take 50

/-- Candidate collection of `parseGuides` (lines 57–71): the `guides`
parameter is split on commas, trimmed and cleared of empties; each value of
the `guide` parameter is pushed whole (trimmed). -/
def collectCandidates (guides guide : Option QueryValue) : List String :=
  (match guides with
   | none => []
   | some v =>
     if v.truthy then
       (((jsSplitComma v.jsToString).map jsTrim).filter fun s => !(s == ""))
     else [])
  ++
  (match guide with
   | none => []
   | some g =>
     if g.truthy then
       match g with
       | .arr l => l.map jsTrim
       | .str s => [jsTrim s]
     else [])

/-- `parseGuides(req)` (src/index.js v2.2.1 lines 56–86). -/
def parseGuides (q : Query) : List String :=
  normalizeGuides (collectCandidates (lookupJs q "guides") (lookupJs q "guide"))

/-! ### Response shaping (src/index.js v2.2.1 lines 88–95, 217–250) -/

/-- `wantsJson(req)` (lines 88–95). -/
def wantsJson (q : Query) (acceptHeader : String) : Bool :=
  let f := jsToLower (QueryValue.jsToString
    (match lookupJs q "format" with
     | some v => if v.truthy then v else .str ""
     | none => .str ""))
  if f == "json" then true
  else if f == "html" then false
  else jsIncludes (jsToLower acceptHeader) "application/json"
       && !(jsIncludes (jsToLower acceptHeader) "text/html")

/-- A JSON value (enough structure for the payloads the handler builds). -/
inductive JsonValue where
  | bool (b : Bool)
  | num (n : Nat)
  | str (s : String)
  | arr (l : List JsonValue)
  | obj (fields : List (String × JsonValue))

/-- Body of a response.  HTML rendering itself is out of scope (spec §1);
an HTML response is modelled by the data `renderHtml(\x7b guides, signed \x7d)`
receives. -/
inductive Body where
  | json (v : JsonValue)
  | htmlPage (guides : List String) (signed : Bool)

/-- An HTTP response produced by the handler. -/
structure Response where
  status : Nat
  body : Body

/-- Process configuration: `SHOPIFY_API_SECRET` (absent and empty collapse,
since both are falsy for `envOk`). -/
structure Config where
  secret : String

/-- `envOk()` (src/index.js lines 25–27). -/
def envOk (cfg : Config) : Bool := !(cfg.secret == "")

/-- An inbound request: parsed query plus the `Accept` header. -/
structure Request where
  query : Query
  acceptHeader : String

/-- `handleCareGuides(req, res)` (src/index.js v2.2.1 lines 217–250),
parameterized by the HMAC function. -/
def handleCareGuides (hmac : String → String → String)
    (cfg : Config) (req : Request) : Response :=
  if !envOk cfg then
    ⟨500, .json (.obj [("ok", .bool false), ("error", .str "Server not configured"),
                       ("detail", .str "Missing SHOPIFY_API_SECRET")])⟩
  else
    let signed := hasProxySignature req.query
    if signed && !(verifyShopifyProxySignature hmac req.query cfg.secret) then
      ⟨401, .json (.obj [("ok", .bool false), ("error", .str "Unauthorized"),
                         ("detail", .str ((verifyShopifyProxySignatureT hmac req.query cfg.secret).reason.getD ""))])⟩
    else
      let guides := parseGuides req.query
      if wantsJson req.query req.acceptHeader then
        ⟨200, .json (.obj [("ok", .bool true),
                           ("guides", .arr (guides.map JsonValue.str)),
                           ("meta", .obj [("signed", .bool signed),
                                          ("count", .num guides.length)])])⟩
      else
        ⟨200, .htmlPage guides signed⟩

/-! ### part_000: signature middleware with `ALLOW_DIRECT` (lines 61–99, 164–182) -/

/-- `looksLikeShopifyProxy(req)` (part_000 lines 97–99):
`Boolean(req.query && req.query.signature && req.query.shop)`. -/
def looksLikeShopifyProxy (q : Query) : Bool :=
  truthyAt q "signature" && truthyAt q "shop"

/-- `(q.signature || "").toString()` (part_000 line 64). -/
def providedSignature (q : Query) : String :=
  match lookupJs q "signature" with
  | some v => if v.truthy then v.jsToString else ""
  | none => ""

/-- `verifyAppProxy(req)` (part_000 lines 61–91).  Its `timingSafeEqual`
helper (lines 38–43) length-checks the UTF-8 buffers itself and then calls
the constant-time comparator, so as a boolean it is string equality. -/
def verifyAppProxy (hmac : String → String → String)
    (secret : String) (q : Query) : Bool × Option String :=
  let provided := providedSignature q
  if provided == "" then (false, some "Missing signature")
  else if secret == "" then (false, some "Server missing SHOPIFY_API_SECRET")
  else
    let digest := hmac secret (canonicalMessage q)
    if timingSafeEqualModel digest provided then (true, none)
    else (false, some "Invalid signature")

/-- Outcome of the `requireShopifySignature` middleware: pass the request on
(`next()`) or answer 401. -/
inductive MwDecision where
  | next
  | reject (status : Nat)
deriving DecidableEq, Repr

/-- `requireShopifySignature(req, res, next)` (part_000 lines 164–182),
with `ALLOW_DIRECT` as the `allowDirect` argument. -/
def requireShopifySignature (hmac : String → String → String)
    (allowDirect : Bool) (secret : String) (q : Query) : MwDecision :=
  if looksLikeShopifyProxy q then
    if (verifyAppProxy hmac secret q).fst then .next else .reject 401
  else if allowDirect then .next
  else .reject 401

/-! ### part_001 (last revision): `verifyShopifyAppProxySignature` message
(lines 400–428) and part_003: `verifyShopifyProxy` (lines 10–33) -/

/-- `delete q.signature; delete q.hmac` (part_001 lines 408–409, part_003
lines 16–17): every parameter except `signature` and `hmac`. -/
def restNoHmac (q : Query) : Query :=
  q.filter fun p => !(p.fst == "signature") && !(p.fst == "hmac")

/-- The canonical message of part_001's `verifyShopifyAppProxySignature`
(lines 411–414): sorted `key=value` pairs joined with NO separator
(`.join("")`). -/
def canonicalMessageNoSep (q : Query) : String :=
  joinSep ""
    ((List.insertionSort keyOrder ((restNoHmac q).map Prod.fst)).map (pairFor (restNoHmac q)))

/-- The canonical message of part_003's `verifyShopifyProxy` (lines 19–22):
same key set as part_001 but joined with `"&"`. -/
def canonicalMessagePart003 (q : Query) : String :=
  joinSep "&"
    ((List.insertionSort keyOrder ((restNoHmac q).map Prod.fst)).map (pairFor (restNoHmac q)))

/-- `verifyShopifyProxy(req)` (part_003 lines 10–33), instrumented like
`verifyShopifyProxySignatureT`.  It verifies the `hmac` query parameter and
calls `crypto.timingSafeEqual` with NO length guard; Node throws when the
two buffers differ in length, which the model records only as the comparator
having been invoked. -/
def verifyShopifyProxyT (hmac : String → String → String)
    (secret : String) (q : Query) : VerifyTrace :=
  match lookupJs q "hmac" with
  | none => ⟨false, none, false⟩
  | some v =>
    if !v.truthy then ⟨false, none, false⟩
    else
      let generated := hmac secret (canonicalMessagePart003 q)
      ⟨timingSafeEqualModel generated v.jsToString, none, true⟩

/-! ### Trust policy (spec §4.3) and verification outcomes (spec §4.2) -/

/-- The four verification outcomes of spec §4.2. -/
inductive VerificationOutcome where
  | Verified
  | Missing
  | Invalid
  | Misconfigured
deriving DecidableEq, Repr

/-- A trust-policy decision. -/
inductive Decision where
  | admitVerified
  | admitUnverified
  | reject
deriving DecidableEq, Repr

def Decision.isAdmit : Decision → Bool
  | .admitVerified => true
  | .admitUnverified => true
  | .reject => false

/-- Modelled from the spec: the §4.3 trust-policy truth table
(`decide(outcome, allowUnsigned)`), written for refinement comparison with
the code's decisions.  The spec's reject reasons ("server not configured",
"invalid signature", "missing signature") are dropped: the comparison is
about admit/reject and the verified tag. -/
def decideSpec : VerificationOutcome → Bool → Decision
  | .Misconfigured, _ => .reject
  | .Invalid, _ => .reject
  | .Missing, allowUnsigned => if allowUnsigned then .admitUnverified else .reject
  | .Verified, _ => .admitVerified

/-- The verification outcome of a request against `handleCareGuides`
(src/index.js v2.2.1 lines 217–237): the missing-secret check runs first
(`envOk`, line 218), then signature presence (line 227), then the digest
comparison — the same priority the spec's §4.2 lists. -/
def outcomeOf (hmac : String → String → String)
    (cfg : Config) (q : Query) : VerificationOutcome :=
  if !envOk cfg then .Misconfigured
  else if !hasProxySignature q then .Missing
  else if verifyShopifyProxySignature hmac q cfg.secret then .Verified
  else .Invalid

/-- The verification outcome of a request against part_000's verifier, with
the same §4.2 priority (missing secret first, then signature presence, then
the digest comparison). -/
def outcomeOfPart000 (hmac : String → String → String)
    (secret : String) (q : Query) : VerificationOutcome :=
  if secret == "" then .Misconfigured
  else if !truthyAt q "signature" then .Missing
  else if (verifyAppProxy hmac secret q).fst then .Verified
  else .Invalid

/-- The decision a `handleCareGuides` response encodes: non-200 statuses
reject; a 200 response admits, tagged by its `signed` flag (`meta.signed` in
JSON, the `signed` datum of the HTML page). -/
def responseDecision (r : Response) : Decision :=
  if r.status == 200 then
    match r.body with
    | .htmlPage _ signed => if signed then .admitVerified else .admitUnverified
    | .json (.obj fields) =>
      match (fields.find? fun p => p.fst == "meta").map Prod.snd with
      | some (.obj metaFields) =>
        match (metaFields.find? fun p => p.fst == "signed").map Prod.snd with
        | some (.bool true) => .admitVerified
        | _ => .admitUnverified
      | _ => .admitUnverified
    | _ => .admitUnverified
  else .reject

/-! ### Remaining definitions used by the claim statements -/

/-- Field access on a JSON object value. -/
def jsonField (v : JsonValue) (k : String) : Option JsonValue :=
  match v with
  | .obj fields => (fields.find? fun p => p.fst == k).map Prod.snd
  | _ => none

/-- The explicit `ok` boolean of a response, when the response is a JSON
object with a boolean `ok` field. -/
def okBoolField (r : Response) : Option Bool :=
  match r.body with
  | .json v =>
    match jsonField v "ok" with
    | some (.bool b) => some b
    | _ => none
  | _ => none

/-- Is the response body JSON? -/
def bodyIsJson (r : Response) : Bool :=
  match r.body with
  | .json _ => true
  | _ => false

/-- Modelled from the spec: §4.4's validation — "Validate as an absolute URL
whose scheme is exactly `http` or `https`; discard (do not error) any
candidate that fails parsing".  The URL parser itself is the platform's
(WHATWG / Node `new URL`) and is not part of src/; for the http(s) schemes
that parser requires a nonempty host, so `"http://"` fails to parse.  The
model checks the scheme and a nonempty authority segment (the text between
`"://"` and the next `/`, `?` or `#`) — a necessary condition of parse
success used only to exhibit inputs that are certainly not valid URLs. -/
def isValidAbsoluteHttpUrl (s : String) : Bool :=
  let lower := jsToLower s
  let afterScheme : Option (List Char) :=
    if strStartsWith lower "http://" then some (s.data.drop 7)
    else if strStartsWith lower "https://" then some (s.data.drop 8)
    else none
  match afterScheme with
  | none => false
  | some rest =>
    !(rest.takeWhile fun c => !(c = '/' || c = '?' || c = '#')).isEmpty

/-- A concrete stand-in for the abstract HMAC function, used to state closed
counterexamples and witnesses (any function works; the claims under test do
not depend on the digest algorithm). -/
def hmacConcat (secret message : String) : String := secret ++ "#" ++ message

/-! ### Order properties of the key comparison -/

theorem charListLe_total : ∀ as bs, charListLe as bs = true ∨ charListLe bs as = true := by
  intro as
  induction as with
  | nil => intro bs; left; rfl
  | cons a as ih =>
    intro bs
    cases bs with
    | nil => right; rfl
    | cons b bs =>
      rcases lt_trichotomy a b with h | h | h
      · left; simp [charListLe, h]
      · subst h
        rcases ih bs with h' | h'
        · left; simp [charListLe, lt_irrefl, h']
        · right; simp [charListLe, lt_irrefl, h']
      · right; simp [charListLe, h]

theorem charListLe_antisymm :
    ∀ as bs, charListLe as bs = true → charListLe bs as = true → as = bs := by
  intro as
  induction as with
  | nil =>
    intro bs _ h2
    cases bs with
    | nil => rfl
    | cons b bs => simp [charListLe] at h2
  | cons a as ih =>
    intro bs h1 h2
    cases bs with
    | nil => simp [charListLe] at h1
    | cons b bs =>
      rcases lt_trichotomy a b with h | h | h
      · simp [charListLe, h, asymm h] at h2
      · subst h
        simp [charListLe, lt_irrefl] at h1 h2
        rw [ih bs h1 h2]
      · simp [charListLe, h, asymm h] at h1

theorem charListLe_trans :
    ∀ as bs cs, charListLe as bs = true → charListLe bs cs = true → charListLe as cs = true := by
  intro as
  induction as with
  | nil => intro bs cs _ _; rfl
  | cons a as ih =>
    intro bs cs h1 h2
    cases bs with
    | nil => simp [charListLe] at h1
    | cons b bs =>
      cases cs with
      | nil => simp [charListLe] at h2
      | cons c cs =>
        rcases lt_trichotomy a b with hab | hab | hab
        · rcases lt_trichotomy b c with hbc | hbc | hbc
          · simp [charListLe, lt_trans hab hbc]
          · subst hbc; simp [charListLe, hab]
          · simp [charListLe, hbc, asymm hbc] at h2
        · subst hab
          rcases lt_trichotomy a c with hac | hac | hac
          · simp [charListLe, hac]
          · subst hac
            simp [charListLe, lt_irrefl] at h1 h2 ⊢
            exact ih _ _ h1 h2
          · simp [charListLe, hac, asymm hac] at h2
        · simp [charListLe, hab, asymm hab] at h1

instance : IsTotal String keyOrder := ⟨fun a b => charListLe_total a.data b.data⟩

instance : IsTrans String keyOrder := ⟨fun a b c => charListLe_trans a.data b.data c.data⟩

instance : IsAntisymm String keyOrder :=
  ⟨fun a b h1 h2 => by
    have h := charListLe_antisymm a.data b.data h1 h2
    cases a
    cases b
    exact congrArg String.mk h⟩

/-! ### Association-list lookup lemmas -/

theorem lookupJs_mem {q : Query} {k : String} {v : QueryValue}
    (h : lookupJs q k = some v) : (k, v) ∈ q := by
  unfold lookupJs at h
  cases hf : q.find? (fun p => p.fst == k) with
  | none => rw [hf] at h; simp at h
  | some p =>
    rw [hf] at h
    simp at h
    have hp := List.find?_some hf
    have hmem := List.mem_of_find?_eq_some hf
    have hk : p.fst = k := by simpa using hp
    have : (k, v) = p := by
      cases p with
      | mk a b => simp at hk h; rw [hk, h]
    rw [this]
    exact hmem

theorem mem_lookupJs {q : Query} {k : String} {v : QueryValue}
    (hnd : NodupKeys q) (h : (k, v) ∈ q) : lookupJs q k = some v := by
  induction q with
  | nil => simp at h
  | cons p rest ih =>
    have hnd' : NodupKeys rest := by
      unfold NodupKeys at hnd ⊢
      simpa using (List.nodup_cons.mp (by simpa using hnd)).2
    have hhead : p.fst ∉ rest.map Prod.fst := by
      unfold NodupKeys at hnd
      exact (List.nodup_cons.mp (by simpa using hnd)).1
    rcases List.mem_cons.mp h with heq | hmem
    · unfold lookupJs
      rw [← heq]
      simp [List.find?]
    · have hkne : ¬(p.fst == k) = true := by
        intro hbeq
        have : p.fst = k := by simpa using hbeq
        apply hhead
        rw [this]
        exact List.mem_map.mpr ⟨(k, v), hmem, rfl⟩
      unfold lookupJs at ih ⊢
      simp only [List.find?]
      rw [Bool.not_eq_true] at hkne
      rw [hkne]
      exact ih hnd' hmem

theorem lookupJs_perm {q1 q2 : Query} (hperm : List.Perm q1 q2)
    (hnd : NodupKeys q1) (k : String) : lookupJs q1 k = lookupJs q2 k := by
  have hnd2 : NodupKeys q2 := (hperm.map Prod.fst).nodup hnd
  cases h1 : lookupJs q1 k with
  | none =>
    cases h2 : lookupJs q2 k with
    | none => rfl
    | some v =>
      exfalso
      have hm : (k, v) ∈ q1 := hperm.symm.subset (lookupJs_mem h2)
      rw [mem_lookupJs hnd hm] at h1
      exact Option.noConfusion h1
  | some v =>
    have hm : (k, v) ∈ q2 := hperm.subset (lookupJs_mem h1)
    rw [mem_lookupJs hnd2 hm]

/-! ### Claim C3: verification round-trip -/

/-- C3: for every query (hence every canonical message `M` it induces) and
every non-empty shared secret `K`, verifying a supplied signature equal to
the HMAC-SHA256 hex digest of `M` under `K` yields the Verified outcome
(`verifyShopifyProxySignature` returns ok).  The HMAC itself is an abstract
function parameter; only its determinism is used, exactly as in the code. -/
theorem c3_roundtrip (hmac : String → String → String) (secret : String)
    (q : Query) (v : QueryValue)
    (_hsecret : secret ≠ "")
    (hlook : lookupJs q "signature" = some v) (hv : v.truthy = true)
    (hsig : v.jsToString = hmac secret (canonicalMessage q)) :
    verifyShopifyProxySignature hmac q secret = true := by
  unfold verifyShopifyProxySignature verifyShopifyProxySignatureT
  rw [hlook]
  simp [hv, hsig, timingSafeEqualModel]

/-- Witness for C3 at a concrete query, secret and digest function. -/
theorem c3_roundtrip_witness :
    verifyShopifyProxySignature hmacConcat
      [("a", .str "1"), ("signature", .str "k#a=1")] "k" = true :=
  c3_roundtrip hmacConcat "k" [("a", .str "1"), ("signature", .str "k#a=1")]
    (.str "k#a=1") (by decide) (by decide) (by decide) (by decide)

/-! ### Claim C2: length check short-circuits the comparator -/

/-- C2 (amended to `verifyShopifyProxySignature`, src/index.js lines 49–51):
whenever the supplied signature's length differs from the computed digest's
length, the verifier rejects via the length check alone and the byte-wise
comparator is not invoked; conversely the comparator runs only when the two
lengths are equal.  The claim's further source, part_003's
`verifyShopifyProxy`, has no length guard — see
`c2_length_guard_counterexample`. -/
theorem c2_length_guard_amended :
    (∀ (hmac : String → String → String) (q : Query) (secret : String) (v : QueryValue),
      lookupJs q "signature" = some v → v.truthy = true →
      utf16Length (v.jsToString) ≠ utf16Length (hmac secret (canonicalMessage q)) →
      (verifyShopifyProxySignatureT hmac q secret).ok = false
      ∧ (verifyShopifyProxySignatureT hmac q secret).comparatorInvoked = false)
    ∧ (∀ (hmac : String → String → String) (q : Query) (secret : String),
      (verifyShopifyProxySignatureT hmac q secret).comparatorInvoked = true →
      ∃ v, lookupJs q "signature" = some v
        ∧ utf16Length (hmac secret (canonicalMessage q)) = utf16Length (v.jsToString)) := by
  constructor
  · intro hmac q secret v hlook hv hlen
    unfold verifyShopifyProxySignatureT
    rw [hlook]
    simp only [hv, Bool.not_true, Bool.false_eq_true, if_false]
    rw [if_neg]
    · exact ⟨rfl, rfl⟩
    · simp only [beq_iff_eq]
      exact fun h => hlen h.symm
  · intro hmac q secret hinv
    unfold verifyShopifyProxySignatureT at hinv
    cases hlook : lookupJs q "signature" with
    | none => rw [hlook] at hinv; simp at hinv
    | some v =>
      rw [hlook] at hinv
      refine ⟨v, rfl, ?_⟩
      by_cases hv : v.truthy = true
      · simp only [hv, Bool.not_true, Bool.false_eq_true, if_false] at hinv
        by_cases hlen : (utf16Length (hmac secret (canonicalMessage q))
            == utf16Length (v.jsToString)) = true
        · simpa using hlen
        · rw [Bool.not_eq_true] at hlen
          rw [if_neg (by simp [hlen])] at hinv
          simp at hinv
      · rw [Bool.not_eq_true] at hv
        simp only [hv] at hinv
        simp at hinv

/-- The claim as stated is false of part_003's `verifyShopifyProxy`
(lines 29–32), which it cites: with secret `"s"`, query `?hmac=dead` and a
digest function returning `"s#"`, the supplied value's length (4) differs
from the digest's length (2), yet the constant-time comparator IS invoked —
in Node, `crypto.timingSafeEqual` then throws instead of rejecting. -/
theorem c2_length_guard_counterexample :
    (verifyShopifyProxyT hmacConcat "s" [("hmac", .str "dead")]).comparatorInvoked = true
    ∧ (verifyShopifyProxyT hmacConcat "s" [("hmac", .str "dead")]).ok = false
    ∧ utf16Length (hmacConcat "s" (canonicalMessagePart003 [("hmac", .str "dead")]))
      ≠ utf16Length "dead" := by decide

/-- Witness for C2's amended theorem at a concrete mismatched-length input. -/
theorem c2_length_guard_witness :
    (verifyShopifyProxySignatureT hmacConcat [("signature", .str "abc")] "k").ok = false
    ∧ (verifyShopifyProxySignatureT hmacConcat
        [("signature", .str "abc")] "k").comparatorInvoked = false :=
  c2_length_guard_amended.1 hmacConcat [("signature", .str "abc")] "k"
    (.str "abc") (by decide) (by decide) (by decide)

/-! ### Claim C9: empty-string signature is treated as unsigned -/

/-- C9: a request whose `signature` query parameter is present but equal to
the empty string is treated as unsigned: `hasProxySignature` is false for it
(the empty string is falsy), so verification is skipped entirely — the
handler's result does not depend on the digest function at all — and, with
the secret configured, the request is admitted (status 200) as unverified
(`meta.signed = false` in JSON, `signed = false` for the HTML page). -/
theorem c9_empty_signature_unsigned
    (hmac hmac' : String → String → String) (secret : String)
    (q : Query) (accept : String)
    (hsecret : secret ≠ "")
    (hsig : lookupJs q "signature" = some (.str "")) :
    hasProxySignature q = false
    ∧ handleCareGuides hmac ⟨secret⟩ ⟨q, accept⟩ = handleCareGuides hmac' ⟨secret⟩ ⟨q, accept⟩
    ∧ (handleCareGuides hmac ⟨secret⟩ ⟨q, accept⟩).status = 200
    ∧ responseDecision (handleCareGuides hmac ⟨secret⟩ ⟨q, accept⟩) = .admitUnverified := by
  have hno : hasProxySignature q = false := by
    unfold hasProxySignature truthyAt
    rw [hsig]
    rfl
  have henv : envOk ⟨secret⟩ = true := by
    unfold envOk
    simp [hsecret]
  refine ⟨hno, ?_, ?_, ?_⟩
  · unfold handleCareGuides
    simp [henv, hno]
  · unfold handleCareGuides
    simp only [henv, Bool.not_true, Bool.false_eq_true, if_false, hno,
      Bool.false_and, Bool.not_false]
    split <;> rfl
  · unfold handleCareGuides
    simp only [henv, Bool.not_true, Bool.false_eq_true, if_false, hno,
      Bool.false_and, Bool.not_false]
    split
    · unfold responseDecision
      simp [List.find?]
    · unfold responseDecision
      simp

/-- Witness for C9 at a concrete query with `signature=` empty. -/
theorem c9_empty_signature_unsigned_witness :
    hasProxySignature [("signature", .str ""), ("guide", .str "https://a.example/x")] = false
    ∧ responseDecision (handleCareGuides hmacConcat ⟨"s3cr3t"⟩
        ⟨[("signature", .str ""), ("guide", .str "https://a.example/x")], ""⟩)
      = .admitUnverified := by
  have h := c9_empty_signature_unsigned hmacConcat hmacConcat "s3cr3t"
    [("signature", .str ""), ("guide", .str "https://a.example/x")] ""
    (by decide) (by decide)
  exact ⟨h.1, h.2.2.2⟩

/-! ### Claim C10: only `guides` is split on commas -/

theorem dedupeFilter_length_le : ∀ (l seen : List String),
    (dedupeFilter l seen).length ≤ l.length := by
  intro l
  induction l with
  | nil => intro seen; simp [dedupeFilter]
  | cons u rest ih =>
    intro seen
    unfold dedupeFilter
    by_cases h1 : (jsTrim u == "") = true
    · simp only [h1, if_true]
      exact le_trans (ih seen) (Nat.le_succ _)
    · rw [Bool.not_eq_true] at h1
      simp only [h1, Bool.false_eq_true, if_false]
      by_cases h2 : (!startsHttp (jsTrim u)) = true
      · simp only [h2, if_true]
        exact le_trans (ih seen) (Nat.le_succ _)
      · rw [Bool.not_eq_true] at h2
        simp only [h2, Bool.false_eq_true, if_false]
        by_cases h3 : jsTrim u ∈ seen
        · simp only [if_pos h3]
          exact le_trans (ih seen) (Nat.le_succ _)
        · simp only [if_neg h3, List.length_cons]
          exact Nat.succ_le_succ (ih _)

theorem normalizeGuides_length_le (l : List String) :
    (normalizeGuides l).length ≤ l.length := by
  unfold normalizeGuides
  calc (List.take 50 (dedupeFilter l [])).length
      ≤ (dedupeFilter l []).length := by
        rw [List.length_take]; exact min_le_right _ _
    _ ≤ l.length := dedupeFilter_length_le l []

/-- C10: only the plural `guides` parameter is split on commas
(src/index.js lines 59–65); every value of the singular `guide` parameter is
pushed whole (lines 67–71).  Concretely, a comma-joined pair of URLs passed
as `guides` produces two entries, while the same string passed as `guide` is
one candidate and yields the single comma-containing entry; in general a
single `guide` string yields at most one output entry and a repeated `guide`
parameter yields at most one entry per occurrence. -/
theorem c10_guide_not_split :
    parseGuides [("guides", .str "https://a.example/x,https://a.example/y")]
      = ["https://a.example/x", "https://a.example/y"]
    ∧ parseGuides [("guide", .str "https://a.example/x,https://a.example/y")]
      = ["https://a.example/x,https://a.example/y"]
    ∧ (∀ s : String, (parseGuides [("guide", .str s)]).length ≤ 1)
    ∧ (∀ l : List String, (parseGuides [("guide", .arr l)]).length ≤ l.length) := by
  refine ⟨by decide, by decide, ?_, ?_⟩
  · intro s
    unfold parseGuides
    have hguides : lookupJs [("guide", .str s)] "guides" = none := rfl
    have hguide : lookupJs [("guide", .str s)] "guide" = some (.str s) := rfl
    rw [hguides, hguide]
    by_cases h : (s == "") = true
    · have : collectCandidates none (some (.str s)) = [] := by
        unfold collectCandidates
        simp [QueryValue.truthy, h]
      rw [this]
      decide
    · have : collectCandidates none (some (.str s)) = [jsTrim s] := by
        unfold collectCandidates
        rw [Bool.not_eq_true] at h
        simp [QueryValue.truthy, h]
      rw [this]
      exact normalizeGuides_length_le [jsTrim s]
  · intro l
    unfold parseGuides
    have hguides : lookupJs [("guide", .arr l)] "guides" = none := rfl
    have hguide : lookupJs [("guide", .arr l)] "guide" = some (.arr l) := rfl
    rw [hguides, hguide]
    have : collectCandidates none (some (.arr l)) = l.map jsTrim := by
      unfold collectCandidates
      simp [QueryValue.truthy]
    rw [this]
    calc (normalizeGuides (l.map jsTrim)).length
        ≤ (l.map jsTrim).length := normalizeGuides_length_le _
      _ = l.length := List.length_map _ _

/-! ### Claim C4: canonicalization is deterministic and order-independent -/

/-- C4: the canonical message is built from all parameters except
`signature` (whose name never appears among the canonicalized keys), with
parameter names sorted ascending; hence two query objects whose
name→value(s) pairs minus `signature` are equal as sets (a permutation of
one another) yield byte-identical canonical messages, regardless of
insertion order. -/
theorem c4_canonical_deterministic (q1 q2 : Query)
    (h1 : NodupKeys q1) (_h2 : NodupKeys q2)
    (hperm : List.Perm (restOf q1) (restOf q2)) :
    canonicalMessage q1 = canonicalMessage q2
    ∧ "signature" ∉ sortedRestKeys q1
    ∧ List.Sorted keyOrder (sortedRestKeys q1) := by
  have hnd1 : NodupKeys (restOf q1) := by
    unfold NodupKeys at h1 ⊢
    exact List.Nodup.sublist ((List.filter_sublist q1).map Prod.fst) h1
  have hkeys : List.Perm ((restOf q1).map Prod.fst) ((restOf q2).map Prod.fst) :=
    hperm.map Prod.fst
  have hsortEq : sortedRestKeys q1 = sortedRestKeys q2 := by
    unfold sortedRestKeys
    apply List.eq_of_perm_of_sorted (r := keyOrder)
    · exact ((List.perm_insertionSort keyOrder _).trans hkeys).trans
        (List.perm_insertionSort keyOrder _).symm
    · exact List.sorted_insertionSort keyOrder _
    · exact List.sorted_insertionSort keyOrder _
  refine ⟨?_, ?_, List.sorted_insertionSort keyOrder _⟩
  · unfold canonicalMessage
    rw [hsortEq]
    congr 1
    apply List.map_congr_left
    intro k _
    unfold pairFor
    rw [lookupJs_perm hperm hnd1 k]
  · intro hmem
    have hmem' : "signature" ∈ (restOf q1).map Prod.fst :=
      (List.perm_insertionSort keyOrder _).subset hmem
    rcases List.mem_map.mp hmem' with ⟨p, hp, hfst⟩
    have hfil := (List.mem_filter.mp hp).2
    rw [hfst] at hfil
    simp at hfil

/-- Witness for C4: the same two parameters inserted in different orders
(one query also carrying a signature) canonicalize identically. -/
theorem c4_canonical_deterministic_witness :
    canonicalMessage [("b", .str "2"), ("signature", .str "x"), ("a", .str "1")]
      = canonicalMessage [("a", .str "1"), ("b", .str "2")]
    ∧ "signature" ∉ sortedRestKeys [("b", .str "2"), ("signature", .str "x"), ("a", .str "1")] := by
  have h := c4_canonical_deterministic
    [("b", .str "2"), ("signature", .str "x"), ("a", .str "1")]
    [("a", .str "1"), ("b", .str "2")]
    (by decide) (by decide) (by decide)
  exact ⟨h.1, h.2.1⟩

/-! ### Trim idempotence and dedupe-loop invariants (for C6 and C7) -/

theorem head?_dropWhile_false {α} (p : α → Bool) :
    ∀ (l : List α) (c : α), (l.dropWhile p).head? = some c → p c = false := by
  intro l
  induction l with
  | nil => intro c h; simp [List.dropWhile] at h
  | cons a t ih =>
    intro c h
    rw [List.dropWhile_cons] at h
    by_cases hp : p a = true
    · rw [if_pos hp] at h
      exact ih c h
    · rw [Bool.not_eq_true] at hp
      rw [if_neg (by simp [hp])] at h
      simp at h
      rw [← h]
      exact hp

theorem dropWhile_eq_self_of_head {α} (p : α → Bool)
    (l : List α) (h : ∀ c, l.head? = some c → p c = false) : l.dropWhile p = l := by
  cases l with
  | nil => rfl
  | cons a t =>
    rw [List.dropWhile_cons, if_neg]
    simp [h a rfl]

theorem exists_append_dropWhile {α} (p : α → Bool) :
    ∀ (l : List α), ∃ t, t ++ l.dropWhile p = l := by
  intro l
  induction l with
  | nil => exact ⟨[], rfl⟩
  | cons a t ih =>
    by_cases hp : p a = true
    · rcases ih with ⟨u, hu⟩
      refine ⟨a :: u, ?_⟩
      rw [List.dropWhile_cons, if_pos hp]
      simpa using hu
    · refine ⟨[], ?_⟩
      rw [List.dropWhile_cons, if_neg hp]
      rfl

theorem jsTrim_idem (s : String) : jsTrim (jsTrim s) = jsTrim s := by
  unfold jsTrim
  congr 1
  show ((((((s.data.dropWhile Char.isWhitespace).reverse.dropWhile
      Char.isWhitespace).reverse).dropWhile Char.isWhitespace).reverse).dropWhile
      Char.isWhitespace).reverse
    = ((s.data.dropWhile Char.isWhitespace).reverse.dropWhile Char.isWhitespace).reverse
  set ws := Char.isWhitespace with hws
  set a := s.data.dropWhile ws with ha
  set b := a.reverse.dropWhile ws with hb
  have hX : b.reverse.dropWhile ws = b.reverse := by
    apply dropWhile_eq_self_of_head
    intro c hc
    rcases exists_append_dropWhile ws a.reverse with ⟨t, ht⟩
    have hpre : b.reverse ++ t.reverse = a := by
      have := congrArg List.reverse ht
      simpa [hb] using this
    cases hbr : b.reverse with
    | nil => rw [hbr] at hc; simp at hc
    | cons c0 rest =>
      rw [hbr] at hc
      simp at hc
      have haHead : a.head? = some c0 := by
        rw [← hpre, hbr]
        rfl
      rw [← hc]
      exact head?_dropWhile_false ws s.data c0 haHead
  rw [hX, List.reverse_reverse]
  have hbb : b.dropWhile ws = b := by
    apply dropWhile_eq_self_of_head
    intro c hc
    exact head?_dropWhile_false ws a.reverse c hc
  rw [hbb]

theorem dedupeFilter_mem_props : ∀ (l seen : List String) (u : String),
    u ∈ dedupeFilter l seen →
    u ∉ seen ∧ jsTrim u = u ∧ (u == "") = false ∧ startsHttp u = true := by
  intro l
  induction l with
  | nil => intro seen u h; simp [dedupeFilter] at h
  | cons x rest ih =>
    intro seen u h
    unfold dedupeFilter at h
    by_cases h1 : (jsTrim x == "") = true
    · rw [if_pos h1] at h
      exact ih seen u h
    · rw [Bool.not_eq_true] at h1
      rw [if_neg (by simp [h1])] at h
      by_cases h2 : (!startsHttp (jsTrim x)) = true
      · rw [if_pos h2] at h
        exact ih seen u h
      · rw [Bool.not_eq_true] at h2
        rw [if_neg (by simp [h2])] at h
        by_cases h3 : jsTrim x ∈ seen
        · rw [if_pos h3] at h
          exact ih seen u h
        · rw [if_neg h3] at h
          rcases List.mem_cons.mp h with heq | hmem
          · subst heq
            refine ⟨h3, jsTrim_idem x, h1, ?_⟩
            have := Bool.not_eq_true' .. ▸ h2
            simpa using h2
          · have := ih (jsTrim x :: seen) u hmem
            refine ⟨fun hs => this.1 (List.mem_cons_of_mem _ hs), this.2⟩

theorem dedupeFilter_nodup : ∀ (l seen : List String), (dedupeFilter l seen).Nodup := by
  intro l
  induction l with
  | nil => intro seen; simp [dedupeFilter]
  | cons x rest ih =>
    intro seen
    unfold dedupeFilter
    by_cases h1 : (jsTrim x == "") = true
    · rw [if_pos h1]; exact ih seen
    · rw [Bool.not_eq_true] at h1
      rw [if_neg (by simp [h1])]
      by_cases h2 : (!startsHttp (jsTrim x)) = true
      · rw [if_pos h2]; exact ih seen
      · rw [Bool.not_eq_true] at h2
        rw [if_neg (by simp [h2])]
        by_cases h3 : jsTrim x ∈ seen
        · rw [if_pos h3]; exact ih seen
        · rw [if_neg h3]
          refine List.nodup_cons.mpr ⟨?_, ih _⟩
          intro hmem
          exact (dedupeFilter_mem_props rest (jsTrim x :: seen) (jsTrim x) hmem).1
            (List.mem_cons_self _ _)

theorem dedupeFilter_sublist : ∀ (l seen : List String),
    (dedupeFilter l seen).Sublist (l.map jsTrim) := by
  intro l
  induction l with
  | nil => intro seen; simp [dedupeFilter]
  | cons x rest ih =>
    intro seen
    unfold dedupeFilter
    by_cases h1 : (jsTrim x == "") = true
    · rw [if_pos h1]; exact (ih seen).cons _
    · rw [Bool.not_eq_true] at h1
      rw [if_neg (by simp [h1])]
      by_cases h2 : (!startsHttp (jsTrim x)) = true
      · rw [if_pos h2]; exact (ih seen).cons _
      · rw [Bool.not_eq_true] at h2
        rw [if_neg (by simp [h2])]
        by_cases h3 : jsTrim x ∈ seen
        · rw [if_pos h3]; exact (ih seen).cons _
        · rw [if_neg h3]; exact (ih _).cons₂ _

theorem dedupeFilter_mem_of_valid : ∀ (l seen : List String) (u : String),
    u ∈ l → (jsTrim u == "") = false → startsHttp (jsTrim u) = true →
    jsTrim u ∉ seen → jsTrim u ∈ dedupeFilter l seen := by
  intro l
  induction l with
  | nil => intro seen u h; simp at h
  | cons x rest ih =>
    intro seen u hmem hne hhttp hseen
    unfold dedupeFilter
    rcases List.mem_cons.mp hmem with heq | hmem'
    · subst heq
      rw [if_neg (by simp [hne])]
      rw [if_neg (by simp [hhttp])]
      rw [if_neg hseen]
      exact List.mem_cons_self _ _
    · by_cases h1 : (jsTrim x == "") = true
      · rw [if_pos h1]; exact ih seen u hmem' hne hhttp hseen
      · rw [Bool.not_eq_true] at h1
        rw [if_neg (by simp [h1])]
        by_cases h2 : (!startsHttp (jsTrim x)) = true
        · rw [if_pos h2]; exact ih seen u hmem' hne hhttp hseen
        · rw [Bool.not_eq_true] at h2
          rw [if_neg (by simp [h2])]
          by_cases h3 : jsTrim x ∈ seen
          · rw [if_pos h3]; exact ih seen u hmem' hne hhttp hseen
          · rw [if_neg h3]
            by_cases heq : jsTrim u = jsTrim x
            · rw [← heq]; exact List.mem_cons_self _ _
            · refine List.mem_cons_of_mem _ (ih _ u hmem' hne hhttp ?_)
              intro hc
              rcases List.mem_cons.mp hc with hc1 | hc2
              · exact heq hc1
              · exact hseen hc2

theorem dedupeFilter_clean_id : ∀ (m seen : List String),
    m.Nodup →
    (∀ u ∈ m, jsTrim u = u ∧ (u == "") = false ∧ startsHttp u = true) →
    (∀ u ∈ m, u ∉ seen) →
    dedupeFilter m seen = m := by
  intro m
  induction m with
  | nil => intro seen _ _ _; rfl
  | cons x rest ih =>
    intro seen hnd hprops hseen
    have hx := hprops x (List.mem_cons_self _ _)
    unfold dedupeFilter
    rw [hx.1]
    rw [if_neg (by simp [hx.2.1])]
    rw [if_neg (by simp [hx.2.2])]
    rw [if_neg (hseen x (List.mem_cons_self _ _))]
    congr 1
    refine ih (x :: seen) (List.nodup_cons.mp hnd).2
      (fun u hu => hprops u (List.mem_cons_of_mem _ hu)) ?_
    intro u hu hc
    rcases List.mem_cons.mp hc with hc1 | hc2
    · subst hc1
      exact (List.nodup_cons.mp hnd).1 hu
    · exact hseen u (List.mem_cons_of_mem _ hu) hc2

/-! ### Claim C7: the normalization core is idempotent -/

/-- C7: the list→list normalization of `parseGuides` (trim, drop empties,
drop non-http(s) candidates, deduplicate keeping first occurrences, cap at
50 — src/index.js lines 73–85) is idempotent: applied to its own output it
returns that output unchanged. -/
theorem c7_normalize_idempotent (l : List String) :
    normalizeGuides (normalizeGuides l) = normalizeGuides l := by
  unfold normalizeGuides
  have hsub : (List.take 50 (dedupeFilter l [])).Sublist (dedupeFilter l []) :=
    List.take_sublist _ _
  have hnodup : (List.take 50 (dedupeFilter l [])).Nodup :=
    List.Nodup.sublist hsub (dedupeFilter_nodup l [])
  have hprops : ∀ u ∈ List.take 50 (dedupeFilter l []),
      jsTrim u = u ∧ (u == "") = false ∧ startsHttp u = true := by
    intro u hu
    have h := dedupeFilter_mem_props l [] u (hsub.subset hu)
    exact ⟨h.2.1, h.2.2.1, h.2.2.2⟩
  rw [dedupeFilter_clean_id (List.take 50 (dedupeFilter l [])) [] hnodup hprops
    (by intro u _ hc; simp at hc)]
  apply List.take_of_length_le
  rw [List.length_take]
  exact min_le_left _ _

/-! ### Claim C6: the URL normalizer (corrected) -/

/-- The claim as stated is false: `parseGuides` filters candidates with the
prefix regex `/^https?:\x2f\x2f/i` only and never parses them as URLs, so the
candidate `"http://"` — which has no host and fails URL parsing (Node's
`new URL("http://")` throws) — is kept in the output rather than dropped. -/
theorem c6_normalizer_counterexample :
    parseGuides [("guides", .str "http://")] = ["http://"]
    ∧ isValidAbsoluteHttpUrl "http://" = false := by decide

/-- C6 (amended): for every input, `parseGuides` returns an ordered list
with no duplicates (first occurrence kept, first-seen order preserved — the
output is a sublist of the trimmed candidate list), at most 50 entries,
every entry nonempty, trimmed and beginning (case-insensitively) with
`http://` or `https://`; candidates failing that prefix test are silently
dropped rather than causing an error, and a candidate passing it can only be
missing from the output because it was already seen or the 50-entry cap was
reached. -/
theorem c6_normalizer_amended (q : Query) :
    (parseGuides q).Nodup
    ∧ (parseGuides q).length ≤ 50
    ∧ (∀ u ∈ parseGuides q, (u == "") = false ∧ jsTrim u = u ∧ startsHttp u = true)
    ∧ (parseGuides q).Sublist
        ((collectCandidates (lookupJs q "guides") (lookupJs q "guide")).map jsTrim)
    ∧ (∀ u ∈ collectCandidates (lookupJs q "guides") (lookupJs q "guide"),
        (jsTrim u == "") = false → startsHttp (jsTrim u) = true →
        jsTrim u ∉ parseGuides q → (parseGuides q).length = 50) := by
  unfold parseGuides normalizeGuides
  set cand := collectCandidates (lookupJs q "guides") (lookupJs q "guide") with hcand
  have hsub : (List.take 50 (dedupeFilter cand [])).Sublist (dedupeFilter cand []) :=
    List.take_sublist _ _
  refine ⟨List.Nodup.sublist hsub (dedupeFilter_nodup cand []), ?_, ?_, ?_, ?_⟩
  · rw [List.length_take]
    exact min_le_left _ _
  · intro u hu
    have h := dedupeFilter_mem_props cand [] u (hsub.subset hu)
    exact ⟨h.2.2.1, h.2.1, h.2.2.2⟩
  · exact hsub.trans (dedupeFilter_sublist cand [])
  · intro u hu hne hhttp hout
    have hin : jsTrim u ∈ dedupeFilter cand [] :=
      dedupeFilter_mem_of_valid cand [] u hu hne hhttp (by simp)
    by_cases hlen : (dedupeFilter cand []).length ≤ 50
    · exfalso
      rw [List.take_of_length_le hlen] at hout
      exact hout hin
    · rw [List.length_take]
      omega

/-- Witness for C6's amended theorem: a query with 60 distinct valid URLs in
a repeated `guide` parameter yields exactly 50 entries (the dedup + cap
path), and a concrete member of the output satisfies the per-entry
properties. -/
theorem c6_normalizer_amended_witness :
    (parseGuides [("guide", .arr ((List.range 60).map
        fun i => "https://e.example/" ++ Nat.repr i))]).length = 50
    ∧ (("https://e.example/5" == "") = false
       ∧ jsTrim "https://e.example/5" = "https://e.example/5"
       ∧ startsHttp "https://e.example/5" = true) := by
  have h := c6_normalizer_amended
    [("guide", .arr ((List.range 60).map fun i => "https://e.example/" ++ Nat.repr i))]
  refine ⟨h.2.2.2.2 "https://e.example/55" (by decide) (by decide) (by decide) (by decide),
    h.2.2.1 "https://e.example/5" (by decide)⟩

/-! ### Claim C5: canonicalizer joining modes (corrected) -/

theorem foldl_joinSep_length (sep : String) :
    ∀ (xs : List String) (x : String),
    (List.foldl (fun acc y => acc ++ sep ++ y) x xs).length
      = x.length + (xs.map fun y => sep.length + y.length).sum := by
  intro xs
  induction xs with
  | nil => intro x; simp
  | cons y ys ih =>
    intro x
    simp only [List.foldl_cons, List.map_cons, List.sum_cons]
    rw [ih]
    simp [String.length_append]
    omega

/-- The claim as stated is false: the two pair-joining modes are not a
selectable configuration of one canonicalizer — they are hard-coded in two
different source functions, which disagree on the same parsed query
(`verifyShopifyProxySignature` in src/index.js joins with `"&"`, part_001's
`verifyShopifyAppProxySignature` joins with no separator); and the
canonicalizers operate on the parsed, percent-decoded query values, not on
raw percent-encoded text: for the raw query string `a=a%20b&signature=x`
(whose raw first segment is `a=a%20b`), the parsed query maps `a` to
`"a b"`, and the message built from it is `"a=a b"`, not `"a=a%20b"`. -/
theorem c5_joining_modes_counterexample :
    canonicalMessage [("a", .str "1"), ("b", .str "2"), ("signature", .str "x")] = "a=1&b=2"
    ∧ canonicalMessageNoSep [("a", .str "1"), ("b", .str "2"), ("signature", .str "x")] = "a=1b=2"
    ∧ canonicalMessage [("a", .str "1"), ("b", .str "2"), ("signature", .str "x")]
      ≠ canonicalMessageNoSep [("a", .str "1"), ("b", .str "2"), ("signature", .str "x")]
    ∧ canonicalMessage [("a", .str "a b"), ("signature", .str "x")] = "a=a b" := by
  refine ⟨by decide, by decide, by decide, by decide⟩

/-- C5 (amended): the source contains both joining modes, but each is fixed
in its own revision's verifier rather than selectable — on any parsed query
with at least two canonicalized parameters (and no `hmac` parameter, which
only part_001 strips), the `"&"`-joined message of
`verifyShopifyProxySignature` and the separator-less message of part_001's
`verifyShopifyAppProxySignature` necessarily differ; and both operate on
the parsed query mapping, never on raw percent-encoded query text. -/
theorem joinSep_amp_ne_noSep (pairs : List String) (h : 2 ≤ pairs.length) :
    joinSep "&" pairs ≠ joinSep "" pairs := by
  cases pairs with
  | nil => simp at h
  | cons x xs =>
    intro heq
    have hlens := congrArg String.length heq
    unfold joinSep at hlens
    rw [foldl_joinSep_length, foldl_joinSep_length] at hlens
    have hgen : ∀ (n : Nat) (zs : List String),
        (zs.map fun y => n + y.length).sum = n * zs.length + (zs.map String.length).sum := by
      intro n zs
      induction zs with
      | nil => simp
      | cons z zs ih => simp [ih]; ring
    rw [hgen, hgen] at hlens
    have ha : ("&" : String).length = 1 := rfl
    have hb : ("" : String).length = 0 := rfl
    rw [ha, hb] at hlens
    have hxs : 1 ≤ xs.length := by
      simp at h
      omega
    omega

/-- C5 (amended): the source contains both joining modes, but each is fixed
in its own revision's verifier rather than selectable — on any parsed query
with at least two canonicalized parameters (and no `hmac` parameter, which
only part_001 strips), the `"&"`-joined message of
`verifyShopifyProxySignature` and the separator-less message of part_001's
`verifyShopifyAppProxySignature` necessarily differ; and both operate on
the parsed query mapping, never on raw percent-encoded query text. -/
theorem c5_joining_modes_amended (q : Query)
    (hnohmac : ∀ p ∈ q, p.fst ≠ "hmac")
    (hn : 2 ≤ (restOf q).length) :
    canonicalMessage q ≠ canonicalMessageNoSep q := by
  have hrest : restNoHmac q = restOf q := by
    unfold restNoHmac restOf
    apply List.filter_congr
    intro p hp
    simp [hnohmac p hp]
  unfold canonicalMessage canonicalMessageNoSep sortedRestKeys
  rw [hrest]
  apply joinSep_amp_ne_noSep
  rw [List.length_map, (List.perm_insertionSort keyOrder _).length_eq, List.length_map]
  exact hn

/-- Witness for C5's amended theorem at a two-parameter query. -/
theorem c5_joining_modes_witness :
    canonicalMessage [("a", .str "1"), ("b", .str "2")]
      ≠ canonicalMessageNoSep [("a", .str "1"), ("b", .str "2")] :=
  c5_joining_modes_amended [("a", .str "1"), ("b", .str "2")] (by decide) (by decide)

/-! ### Claim C1: trust-policy truth table (corrected) -/

theorem responseDecision_json200 (guides : List JsonValue) (b : Bool) (n : Nat) :
    responseDecision ⟨200, .json (.obj [("ok", .bool true), ("guides", .arr guides),
      ("meta", .obj [("signed", .bool b), ("count", .num n)])])⟩
      = if b then .admitVerified else .admitUnverified := by
  cases b <;> rfl

theorem responseDecision_html200 (guides : List String) (b : Bool) :
    responseDecision ⟨200, .htmlPage guides b⟩
      = if b then .admitVerified else .admitUnverified := by
  cases b <;> rfl

theorem responseDecision_non200 (s : Nat) (body : Body) (h : (s == 200) = false) :
    responseDecision ⟨s, body⟩ = .reject := by
  unfold responseDecision
  simp [h]

/-- The claim as stated is false on part_000's `requireShopifySignature`,
which it cites: a request carrying an invalid signature but no `shop`
parameter does not look like a proxy request (`looksLikeShopifyProxy` needs
both), so with `ALLOW_DIRECT = true` it is admitted without the verifier
ever running — even though its verification outcome is `Invalid`, which the
§4.3 table says is always rejected. -/
theorem c1_trust_policy_counterexample :
    requireShopifySignature hmacConcat true "s3cr3t" [("signature", .str "deadbeef")] = .next
    ∧ outcomeOfPart000 hmacConcat "s3cr3t" [("signature", .str "deadbeef")] = .Invalid
    ∧ decideSpec .Invalid true = .reject := by
  refine ⟨by decide, by decide, by decide⟩

/-- C1 (amended): the §4.3 table holds with these provisos.  (1) The
v2.2.1 handler (src/index.js lines 217–250) implements the table with
`allowUnsigned` fixed to `true` for every request: Misconfigured and
Invalid outcomes are rejected (500 resp. 401), Verified is admitted tagged
verified, Missing is admitted tagged unverified.  (2) part_000's
`requireShopifySignature` middleware implements the table's admit/reject
column (its admits are untagged) with `ALLOW_DIRECT` as `allowUnsigned`,
but only for requests that carry a truthy `shop` parameter and are not
simultaneously unsigned and secretless; a signed request without `shop`
bypasses verification entirely (see the counterexample). -/
theorem c1_trust_policy_amended :
    (∀ (hmac : String → String → String) (cfg : Config) (req : Request),
      responseDecision (handleCareGuides hmac cfg req)
        = decideSpec (outcomeOf hmac cfg req.query) true)
    ∧ (∀ (hmac : String → String → String) (allowDirect : Bool) (secret : String) (q : Query),
      truthyAt q "shop" = true →
      (truthyAt q "signature" = true ∨ secret ≠ "") →
      ((requireShopifySignature hmac allowDirect secret q = .next)
        ↔ (decideSpec (outcomeOfPart000 hmac secret q) allowDirect).isAdmit = true)) := by
  constructor
  · intro hmac cfg req
    unfold handleCareGuides outcomeOf
    by_cases henv : envOk cfg = true
    · rw [if_neg (by simp [henv])]
      simp only [henv, Bool.not_true, Bool.false_eq_true, if_false]
      by_cases hsig : hasProxySignature req.query = true
      · by_cases hver : verifyShopifyProxySignature hmac req.query cfg.secret = true
        · rw [if_neg (by simp [hsig, hver])]
          simp only [hsig, hver, if_true]
          split
          · rw [responseDecision_json200]
            simp [hsig, decideSpec]
          · rw [responseDecision_html200]
            simp [hsig, decideSpec]
        · rw [if_pos (by simp [hsig, hver])]
          rw [responseDecision_non200 _ _ (by decide)]
          simp only [hsig, if_true, hver, Bool.false_eq_true, if_false]
          rfl
      · rw [if_neg (by simp [hsig])]
        simp only [hsig, Bool.false_eq_true, if_false]
        split
        · rw [responseDecision_json200]
          simp only [Bool.not_eq_true] at hsig
          simp [hsig, decideSpec]
        · rw [responseDecision_html200]
          simp only [Bool.not_eq_true] at hsig
          simp [hsig, decideSpec]
    · rw [if_pos (by simp [Bool.not_eq_true] at henv; simp [henv])]
      rw [responseDecision_non200 _ _ (by decide)]
      simp only [Bool.not_eq_true] at henv
      simp [henv, decideSpec]
  · intro hmac allowDirect secret q hshop hcase
    unfold requireShopifySignature looksLikeShopifyProxy outcomeOfPart000
    by_cases hsig : truthyAt q "signature" = true
    · rw [if_pos (by simp [hsig, hshop])]
      by_cases hsec : (secret == "") = true
      · have hverFalse : (verifyAppProxy hmac secret q).fst = false := by
          unfold verifyAppProxy
          by_cases hprov : (providedSignature q == "") = true
          · rw [if_pos hprov]
          · rw [if_neg hprov, if_pos hsec]
        rw [hverFalse]
        simp [hsec, decideSpec, Decision.isAdmit]
      · simp only [hsec, Bool.false_eq_true, if_false, hsig, Bool.not_true, if_true]
        by_cases hver : (verifyAppProxy hmac secret q).fst = true
        · simp [hver, decideSpec, Decision.isAdmit]
        · simp only [Bool.not_eq_true] at hver
          simp [hver, decideSpec, Decision.isAdmit]
    · simp only [Bool.not_eq_true] at hsig
      rw [if_neg (by simp [hsig])]
      have hsec : (secret == "") = false := by
        rcases hcase with hc | hc
        · rw [hsig] at hc; exact absurd hc (by simp)
        · simp [hc]
      simp only [hsec, Bool.false_eq_true, if_false, hsig, Bool.not_false, if_true]
      cases allowDirect
      · simp [decideSpec, Decision.isAdmit]
      · simp [decideSpec, Decision.isAdmit]

/-- Witness for C1's amended theorem: the v2.2.1 handler on an unsigned
request (outcome Missing, admitted unverified), and part_000's middleware
rejecting an unsigned request with `ALLOW_DIRECT = false`. -/
theorem c1_trust_policy_witness :
    (responseDecision (handleCareGuides hmacConcat ⟨"s3cr3t"⟩
        ⟨[("guide", .str "https://a.example/x")], ""⟩)
      = decideSpec (outcomeOf hmacConcat ⟨"s3cr3t"⟩ [("guide", .str "https://a.example/x")]) true)
    ∧ ((requireShopifySignature hmacConcat false "s3cr3t"
          [("shop", .str "x.myshopify.com")] = .next)
        ↔ (decideSpec (outcomeOfPart000 hmacConcat "s3cr3t"
          [("shop", .str "x.myshopify.com")]) false).isAdmit = true) :=
  ⟨c1_trust_policy_amended.1 hmacConcat ⟨"s3cr3t"⟩ ⟨[("guide", .str "https://a.example/x")], ""⟩,
   c1_trust_policy_amended.2 hmacConcat false "s3cr3t" [("shop", .str "x.myshopify.com")]
     (by decide) (Or.inr (by decide))⟩

/-! ### Claim C8: explicit `ok` boolean on every response (corrected) -/

/-- The claim as stated is false: a request answered with HTML (the default
when neither `format=json` nor a JSON `Accept` header is present) receives
the `renderHtml` page, which carries no `ok` field at all — with the secret
configured and a valid guides list, the handler returns status 200 with an
HTML body and `okBoolField` is `none`. -/
theorem c8_ok_field_counterexample :
    handleCareGuides hmacConcat ⟨"s3cr3t"⟩ ⟨[("guides", .str "https://a.example/x")], ""⟩
      = ⟨200, .htmlPage ["https://a.example/x"] false⟩
    ∧ okBoolField (handleCareGuides hmacConcat ⟨"s3cr3t"⟩
        ⟨[("guides", .str "https://a.example/x")], ""⟩) = none := by
  exact ⟨rfl, rfl⟩

/-- C8 (amended): the handler is a total function — every request receives
exactly one response, with no fall-through — and every response whose body
is JSON carries an explicit boolean `ok` field; responses whose body is the
HTML page carry none. -/
theorem c8_ok_field_amended (hmac : String → String → String)
    (cfg : Config) (req : Request)
    (hjson : bodyIsJson (handleCareGuides hmac cfg req) = true) :
    ∃ b, okBoolField (handleCareGuides hmac cfg req) = some b := by
  unfold handleCareGuides at hjson ⊢
  by_cases henv : envOk cfg = true
  · rw [if_neg (by simp [henv])] at hjson ⊢
    by_cases hrej : (hasProxySignature req.query
        && !verifyShopifyProxySignature hmac req.query cfg.secret) = true
    · rw [if_pos hrej]
      exact ⟨false, rfl⟩
    · rw [Bool.not_eq_true] at hrej
      rw [if_neg (by simp [hrej])] at hjson ⊢
      by_cases hwj : wantsJson req.query req.acceptHeader = true
      · rw [if_pos hwj]
        exact ⟨true, rfl⟩
      · rw [if_neg hwj] at hjson
        simp [bodyIsJson] at hjson
  · rw [if_pos (by simp [Bool.not_eq_true] at henv; simp [henv])]
    exact ⟨false, rfl⟩

/-- Witness for C8's amended theorem: the misconfigured-server JSON response
carries `ok = false`. -/
theorem c8_ok_field_witness :
    ∃ b, okBoolField (handleCareGuides hmacConcat ⟨""⟩ ⟨[], ""⟩) = some b :=
  c8_ok_field_amended hmacConcat ⟨""⟩ ⟨[], ""⟩ (by decide)
